import Mathlib

/-
Shallow embedding of the ducktiles interaction state machine
(src/unnamed/part_002, src/src/geometry.ts, src/src/config.ts, src/src/types.ts).

Numbers are modelled as rationals; JS `Math.cos`, `Math.sin`, `Math.PI` and the
random `shuffle` from lodash are environment inputs, collected in `Env` below.
-/

namespace Ducktiles

/-! ## types.ts -/

/-- A point, offset or pair of dimensions: a 2-tuple of numbers. -/
abbrev PointQ := ℚ × ℚ

/-- BBox = [minX, maxX, minY, maxY] (types.ts). -/
structure BBox where
  minX : ℚ
  maxX : ℚ
  minY : ℚ
  maxY : ℚ
  deriving DecidableEq, Repr

/-- Tile (types.ts).  `ghost?` is an optional boolean in the source; it is
always materialised as a `Bool` here (absent = false). -/
structure Tile where
  id : Nat
  char : Char
  offset : PointQ
  ghost : Bool
  deriving DecidableEq, Repr

/-! ## config.ts -/

def tileFontSize : ℚ := 36

/-- `tileSize = tileFontSize * 1.5` (config.ts; the factor is a named constant
there). -/
def tileSize : ℚ := tileFontSize * (3 / 2)

def tileGap : ℚ := 8

def defaultLineHeight : ℚ := 23 / 20

def buttonFontSizePx : ℚ := 18

def buttonFontSizeVW : ℚ := 4

def buttonVerticalPaddingEm : ℚ := 7 / 10

def buttonsMarginBottomEm : ℚ := 1

def footerFontSizePx : ℚ := 12

def footerFontSizeVW : ℚ := 3

def footerMarginBottomEm : ℚ := 1

/-- calculateFooterHeight (config.ts). -/
def calculateFooterHeight (windowWidth : ℚ) : ℚ :=
  let buttonFontSize := min buttonFontSizePx (buttonFontSizeVW * windowWidth / 100)
  let footerFontSize := min footerFontSizePx (footerFontSizeVW * windowWidth / 100)
  buttonFontSize * defaultLineHeight +
    buttonFontSize * buttonVerticalPaddingEm * 2 +
    buttonFontSize * buttonsMarginBottomEm +
    footerFontSize * defaultLineHeight +
    footerFontSize * footerMarginBottomEm +
    buttonFontSize * buttonsMarginBottomEm

/-! ## geometry.ts -/

/-- `add(...vecs)`: component-wise sum over arbitrarily many operands
(geometry.ts implements it with unzip + sum; call sites pass 2 or 3 vectors,
written here as a list). -/
def addV (vecs : List PointQ) : PointQ :=
  ((vecs.map Prod.fst).sum, (vecs.map Prod.snd).sum)

/-- subtract (geometry.ts). -/
def subV (v1 v2 : PointQ) : PointQ :=
  (v1.1 - v2.1, v1.2 - v2.2)

/-- JS `Math.round`: half-integers round toward positive infinity. -/
def jsRound (x : ℚ) : ℚ :=
  ((⌊x + 1 / 2⌋ : ℤ) : ℚ)

/-- round (geometry.ts): component-wise `Math.round`. -/
def roundV (p : PointQ) : PointQ :=
  (jsRound p.1, jsRound p.2)

/-- scale (geometry.ts). -/
def scaleV (v : PointQ) (factor : ℚ) : PointQ :=
  (v.1 * factor, v.2 * factor)

/-- calculateCentroid (geometry.ts): arithmetic mean of the points.  In JS an
empty list yields NaN; here division by zero yields 0 (no verified path feeds
an empty list). -/
def calculateCentroid (points : List PointQ) : PointQ :=
  (((points.map Prod.fst).sum) / points.length,
   ((points.map Prod.snd).sum) / points.length)

/-- calculateBoundingBox(...points) (geometry.ts): min/max over the given
points.  In JS an empty call yields infinities; here the fold starts from the
first point (no verified path passes an empty list), with (0,0) as a formal
fallback. -/
def calculateBoundingBox (points : List PointQ) : BBox :=
  match points with
  | [] => ⟨0, 0, 0, 0⟩
  | p :: ps =>
    ⟨ps.foldl (fun a q => min a q.1) p.1,
     ps.foldl (fun a q => max a q.1) p.1,
     ps.foldl (fun a q => min a q.2) p.2,
     ps.foldl (fun a q => max a q.2) p.2⟩

/-- calculateBBoxCorners (geometry.ts): top left and bottom right. -/
def calculateBBoxCorners (b : BBox) : PointQ × PointQ :=
  ((b.minX, b.minY), (b.maxX, b.maxY))

/-- calculateBBoxDimensions (geometry.ts). -/
def calculateBBoxDimensions (b : BBox) : PointQ :=
  (b.maxX - b.minX, b.maxY - b.minY)

/-- calculateFullWindowBBox (geometry.ts). -/
def calculateFullWindowBBox (windowDimensions : PointQ) : BBox :=
  ⟨0, windowDimensions.1, 0, windowDimensions.2⟩

/-- calculateSmallWindowBBox (geometry.ts). -/
def calculateSmallWindowBBox (windowDimensions : PointQ) : BBox :=
  let footerHeight := calculateFooterHeight windowDimensions.1
  let padding := tileSize / 2
  ⟨padding, windowDimensions.1 - padding, padding, windowDimensions.2 - footerHeight⟩

/-- calculateSmallOffsetBBox (geometry.ts). -/
def calculateSmallOffsetBBox (windowDimensions : PointQ) : BBox :=
  let footerHeight := calculateFooterHeight windowDimensions.1
  ⟨-windowDimensions.1 / 2 + tileSize / 2,
   windowDimensions.1 / 2 - tileSize / 2,
   -windowDimensions.2 / 2 + tileSize / 2,
   windowDimensions.2 / 2 - footerHeight⟩

/-- clampShapeTopLeft (geometry.ts): per axis, when both the near and the far
edge violate the boundary nothing is done; otherwise a single violated edge is
snapped. -/
def clampShapeTopLeft (shapeTopLeft : PointQ) (shapeDimensions : PointQ)
    (boundaries : BBox) : PointQ :=
  let x := shapeTopLeft.1
  let y := shapeTopLeft.2
  let tooFarLeft := x < boundaries.minX
  let tooFarRight := x + shapeDimensions.1 > boundaries.maxX
  let x' :=
    if tooFarLeft ∧ tooFarRight then x
    else if tooFarLeft then boundaries.minX
    else if tooFarRight then boundaries.maxX - shapeDimensions.1
    else x
  let tooFarUp := y < boundaries.minY
  let tooFarDown := y + shapeDimensions.2 > boundaries.maxY
  let y' :=
    if tooFarUp ∧ tooFarDown then y
    else if tooFarUp then boundaries.minY
    else if tooFarDown then boundaries.maxY - shapeDimensions.2
    else y
  (x', y')

/-! ## Reducer data model (src/unnamed/part_002) -/

/-- ActiveSelection (part_002). -/
structure ActiveSelection where
  origin : PointQ
  tileIds : List Nat
  deselecting : Bool
  deriving DecidableEq, Repr

/-- ActiveMove (part_002).  `preview : Record<TileId, Tile>` is modelled as an
association list keyed by tile id. -/
structure ActiveMove where
  origin : PointQ
  position : PointQ
  tileIds : List Nat
  preview : List (Nat × Tile)
  deriving DecidableEq, Repr

/-- State (part_002).  JS `Record`s keyed by numeric ids are modelled as
association lists (`activeMoves`) or as id-ordered lists (`inputPreview`,
whose `Object.values` enumeration order is ascending numeric key order, which
is exactly the order `placeNewTiles` produces). -/
structure State where
  tiles : List Tile
  animatingTileMovement : Bool
  inputLetters : Option String
  inputPreview : List Tile
  windowDimensions : PointQ
  activeMoves : List (Nat × ActiveMove)
  activeSelection : Option ActiveSelection
  primaryPointerPosition : PointQ
  selectedTileIds : List Nat
  appearingTileIds : List Nat
  useTouchUI : Bool
  undoStack : List (List Tile)
  redoStack : List (List Tile)
  showingZeroState : Bool
  showingHelp : Bool
  showingArrangeToLine : Bool
  deriving DecidableEq, Repr

/-- KeyboardEvent, restricted to the fields the reducer reads
(`event.preventDefault()` is a DOM side effect with no bearing on the state). -/
structure KeyEvent where
  key : String
  ctrlKey : Bool
  metaKey : Bool
  shiftKey : Bool
  deriving DecidableEq, Repr

/-- Action (part_002). -/
inductive Action where
  | keyDown (event : KeyEvent)
  | pointerDown (point : PointQ) (pointerId : Nat) (isPrimary : Bool) (hasModifier : Bool)
  | pointerMove (point : PointQ) (pointerId : Nat) (isPrimary : Bool)
  | pointerUp (point : PointQ) (pointerId : Nat) (isPrimary : Bool)
  | windowResize (dimensions : PointQ)
  | startAddTiles
  | backspaceAddTilesInput
  | changeAddTilesInput (input : String)
  | cancelAddTiles
  | commitAddTiles
  | addTilesFromPrompt (text : String)
  | selectAll
  | shuffle
  | arrange
  | delete
  | undo
  | redo
  | enableTouchUI
  | disableTouchUI
  | showHelp
  | hideHelp
  deriving DecidableEq, Repr

/-- Environment inputs the reducer consumes: lodash's random `shuffle`
(`shuf k` is the k-th call made by the reshuffle loop of `shuffleTiles`,
`preShuf` the single call made by the circle branch of `arrange`), and the
floating-point `Math.cos`, `Math.sin`, `Math.PI` used by the circle layout. -/
structure Env where
  shuf : Nat → List PointQ → List PointQ
  preShuf : List PointQ → List PointQ
  cosQ : ℚ → ℚ
  sinQ : ℚ → ℚ
  piQ : ℚ

/-- `initialState` (part_002); `window.innerWidth/innerHeight` are ambient
browser inputs, passed here as parameters. -/
def initialState (w h : ℚ) : State where
  tiles := []
  animatingTileMovement := false
  inputLetters := none
  inputPreview := []
  windowDimensions := (w, h)
  activeMoves := []
  activeSelection := none
  primaryPointerPosition := (w / 2, h / 2)
  selectedTileIds := []
  appearingTileIds := []
  useTouchUI := false
  undoStack := []
  redoStack := []
  showingZeroState := true
  showingHelp := false
  showingArrangeToLine := false

/-! ## lodash helpers as used by the reducer -/

/-- lodash `difference(a, b)`: elements of `a` not present in `b`, keeping
the order (and multiplicity) of `a`. -/
def jsDifference (a b : List Nat) : List Nat :=
  a.filter (fun x => !(b.contains x))

/-- First-occurrence deduplication, as lodash `uniq`. -/
def jsUniq (a : List Nat) : List Nat :=
  a.foldl (fun acc x => if acc.contains x then acc else acc ++ [x]) []

/-- lodash `union(a, b)`: unique values of `a ++ b` in first-occurrence
order. -/
def jsUnion (a b : List Nat) : List Nat :=
  jsUniq (a ++ b)

/-- lodash `intersection(a, b)`: unique values present in both arrays,
ordered by `a`. -/
def jsIntersection (a b : List Nat) : List Nat :=
  (jsUniq a).filter (fun x => b.contains x)

/-- `keyBy(state.tiles, t => t.id)` followed by an index access: looks a tile
up by id.  (JS `keyBy` lets the last duplicate win; tile ids are unique in
every state the app builds, and this model keeps the first.) -/
def tileById (tiles : List Tile) (i : Nat) : Option Tile :=
  tiles.find? (fun t => t.id == i)

/-- JS string truthiness for `state.inputLetters`: `null` and `""` are
falsy. -/
def jsTruthyStr : Option String → Bool
  | none => false
  | some t => !t.isEmpty

/-! ## Hit testing and layout (part_002) -/

/-- findTilesOverlappingBox (part_002): tiles whose fixed-size square at
`offset + windowDimensions/2` intersects the bounding box of the two
corners. -/
def findTilesOverlappingBox (state : State) (corner1 corner2 : PointQ) : List Tile :=
  let b := calculateBoundingBox [corner1, corner2]
  state.tiles.filter (fun tile =>
    let m := addV [tile.offset, scaleV state.windowDimensions (1 / 2)]
    decide (m.1 ≤ b.maxX) && decide (m.1 + tileSize ≥ b.minX) &&
      decide (m.2 ≤ b.maxY) && decide (m.2 + tileSize ≥ b.minY))

/-- calculateTilesSize (part_002).  `numberOfTiles - 1` is JS number
arithmetic, so it is `-1` for zero tiles. -/
def calculateTilesSize (numberOfTiles : Nat) : ℚ :=
  tileSize * numberOfTiles + tileGap * ((numberOfTiles : ℚ) - 1)

/-- The `for (;;)` countdown of calculateLinearTilePositions: reduce the
tiles-per-row until the row, centered on the cursor, fits horizontally, or a
single column remains.  (For a zero tile count the JS loop never terminates;
that argument is unreachable from `placeNewTiles`, and the 0 result below is
only a formal completion.) -/
def findMaxRowTiles (cx : ℚ) (bbox : BBox) : Nat → Nat
  | 0 => 0
  | 1 => 1
  | n + 2 =>
    let overallWidth := calculateTilesSize (n + 2)
    if cx - overallWidth / 2 ≥ bbox.minX ∧ cx + overallWidth / 2 ≤ bbox.maxX then n + 2
    else findMaxRowTiles cx bbox (n + 1)

/-- calculateLinearTilePositions (part_002): row-major wrap layout centered
on `center`, clamped into `bbox`. -/
def calculateLinearTilePositions (center : PointQ) (tilesCount : Nat)
    (bbox : BBox) : List PointQ :=
  let maxRowTiles := findMaxRowTiles center.1 bbox tilesCount
  let overallWidth := calculateTilesSize maxRowTiles
  let overallHeight := calculateTilesSize ((tilesCount + maxRowTiles - 1) / maxRowTiles)
  let startX := center.1 - overallWidth / 2
  let startY := center.2 - overallHeight / 2
  let adjusted := clampShapeTopLeft (startX, startY) (overallWidth, overallHeight) bbox
  (List.range tilesCount).map (fun idx =>
    (adjusted.1 + ((idx % maxRowTiles : Nat) : ℚ) * (tileSize + tileGap),
     adjusted.2 + ((idx / maxRowTiles : Nat) : ℚ) * (tileSize + tileGap)))

/-- placeNewTiles (part_002): lay the characters of `rawText` (or the ghost
text "type here" when empty) out around `center`, with fresh ids continuing
from the last tile. -/
def placeNewTiles (state : State) (rawText : String) (center : PointQ) : List Tile :=
  let chars := (if rawText.isEmpty then "type here" else rawText).data
  let nextId := (match state.tiles.getLast? with
    | some t => t.id
    | none => 0) + 1
  let offsets := calculateLinearTilePositions
    (subV center (state.windowDimensions.1 / 2, state.windowDimensions.2 / 2))
    chars.length
    (calculateSmallOffsetBBox state.windowDimensions)
  chars.enum.map (fun p =>
    { id := nextId + p.1
      char := p.2
      offset := offsets.getD p.1 (0, 0)
      ghost := rawText.isEmpty })

/-! ## shuffleTiles (part_002) -/

/-- The `while (isEqual(offsets, startingOffsets)) offsets = shuffle(offsets)`
loop of shuffleTiles: `next k` stands for the k-th call to lodash `shuffle`.
`fuel` bounds the number of iterations; the JS loop has no such bound, so a
`none` result for every fuel is divergence of the source loop. -/
def shuffleLoop (next : Nat → List PointQ → List PointQ) (starting : List PointQ) :
    Nat → Nat → List PointQ → Option (List PointQ)
  | 0, _, offsets => if offsets = starting then none else some offsets
  | fuel + 1, k, offsets =>
    if offsets = starting then shuffleLoop next starting fuel (k + 1) (next k offsets)
    else some offsets

/-- `tileIds.map(id => tilesById[id].offset)`, shared by shuffleTiles and the
arrange branch (`none` models the JS TypeError on a missing id). -/
def startingOffsetsOf (tiles : List Tile) (tileIds : List Nat) : Option (List PointQ) :=
  tileIds.mapM (fun i => (tileById tiles i).map Tile.offset)

/-- shuffleTiles (part_002).  `tilesById[id].offset` throws in JS when an id
is missing; that failure is modelled as `none`, as is divergence of the
reshuffle loop. -/
def shuffleTiles (env : Env) (fuel : Nat) (state : State) (tileIds : List Nat)
    (newOffsets : Option (List PointQ)) : Option State :=
  match startingOffsetsOf state.tiles tileIds with
  | none => none
  | some startingOffsets =>
    match shuffleLoop env.shuf startingOffsets fuel 0 (newOffsets.getD startingOffsets) with
    | none => none
    | some offsets =>
      let offsetById := tileIds.zip offsets
      some { state with
        tiles := state.tiles.map (fun tile =>
          match List.lookup tile.id offsetById with
          | some off => { tile with offset := off }
          | none => tile)
        undoStack := state.undoStack ++ [state.tiles]
        redoStack := []
        animatingTileMovement := true
        appearingTileIds := [] }

/-! ## The reducer (part_002)

`innerReducer` occasionally re-enters the exported `reducer` (keyDown
dispatch, the gesture-reset path of pointerDown, and the commit/cancel
chain).  Every such re-entrant call is on an action that cannot recurse
further, so the mutual recursion is unrolled here: each branch is a function,
and a delegating branch composes the callee with `arrangeResetWrap`, the body
of the exported `reducer`. -/

/-- The wrapper logic of the exported `reducer` (part_002): when the new state
still shows the arrange-to-line toggle but the selection changed, the toggle
is reset.  (The debounced URL write it also performs is an external side
effect.) -/
def arrangeResetWrap (state newState : State) : State :=
  if newState.showingArrangeToLine = true ∧ state.selectedTileIds ≠ newState.selectedTileIds
  then { newState with showingArrangeToLine := false }
  else newState

/-- Insert or replace a pointer's entry, as the JS object spread
`{...state.activeMoves, [action.pointerId]: move}`. -/
def movesInsert (moves : List (Nat × ActiveMove)) (pid : Nat) (m : ActiveMove) :
    List (Nat × ActiveMove) :=
  if (List.lookup pid moves).isSome
  then moves.map (fun p => if p.1 = pid then (pid, m) else p)
  else moves ++ [(pid, m)]

/-- cancelAddTiles branch. -/
def applyCancelAddTiles (state : State) : State :=
  { state with inputLetters := none, inputPreview := [] }

/-- commitAddTiles branch; with falsy input it delegates to
`reducer(state, cancelAddTiles)`. -/
def applyCommitAddTiles (state : State) : State :=
  if jsTruthyStr state.inputLetters = false then
    arrangeResetWrap state (applyCancelAddTiles state)
  else
    { state with
      tiles := state.tiles ++ state.inputPreview
      undoStack := state.undoStack ++ [state.tiles]
      redoStack := []
      inputLetters := none
      inputPreview := []
      animatingTileMovement := false
      appearingTileIds := state.inputPreview.map Tile.id
      showingArrangeToLine := false }

/-- The pointerDown branch after the gesture-reset and active-selection
guards. -/
def applyPointerDownCore (state : State) (point : PointQ) (pointerId : Nat)
    (hasModifier : Bool) : State :=
  let topTileAtPoint₁ := (findTilesOverlappingBox state point point).getLast?
  let topTileAtPoint :=
    match topTileAtPoint₁ with
    | some t => some t
    | none =>
      let bufferDelta : PointQ :=
        if state.useTouchUI then
          if min state.windowDimensions.1 state.windowDimensions.2 ≥ 600
          then (20, 20) else (10, 10)
        else (5, 5)
      (findTilesOverlappingBox state (subV point bufferDelta)
        (addV [point, bufferDelta])).getLast?
  let isMoving := state.activeMoves ≠ []
  match topTileAtPoint, hasModifier with
  | none, _ | some _, true =>
    -- clicking off all tiles, or on a tile with a modifier key
    if isMoving then state
    else
      { state with
        activeSelection := some
          { origin := point
            tileIds := match topTileAtPoint with
              | none => []
              | some t => [t.id]
            deselecting := match topTileAtPoint with
              | none => false
              | some t => state.selectedTileIds.contains t.id }
        primaryPointerPosition := point
        selectedTileIds := if hasModifier then state.selectedTileIds else [] }
  | some touchedTile, false =>
    let touchedTileIsMoving :=
      (state.activeMoves.map Prod.snd).any (fun move => move.tileIds.contains touchedTile.id)
    let touchedTileIsSelected := state.selectedTileIds.contains touchedTile.id
    if touchedTileIsMoving then state
    else
      let movingTileIds :=
        if !isMoving && touchedTileIsSelected then state.selectedTileIds
        else [touchedTile.id]
      let selectedTileIds :=
        if !isMoving && !touchedTileIsSelected then [touchedTile.id]
        else if touchedTileIsSelected then state.selectedTileIds
        else state.selectedTileIds ++ [touchedTile.id]
      { state with
        animatingTileMovement := false
        appearingTileIds := []
        activeMoves := movesInsert state.activeMoves pointerId
          { origin := point, position := point, tileIds := movingTileIds, preview := [] }
        selectedTileIds := selectedTileIds }

/-- pointerDown branch.  The "weird primary event mid-gesture" path clears the
gesture state and re-enters `reducer` with the same action; after the reset
the guards are false, so that call is unrolled to the core handler. -/
def applyPointerDown (state : State) (point : PointQ) (pointerId : Nat)
    (isPrimary hasModifier : Bool) : State :=
  if state.inputLetters ≠ none then state
  else if isPrimary = true ∧ (state.activeSelection ≠ none ∨ state.activeMoves ≠ []) then
    let s' := { state with activeSelection := none, activeMoves := [] }
    arrangeResetWrap s' (applyPointerDownCore s' point pointerId hasModifier)
  else if state.activeSelection ≠ none then state
  else applyPointerDownCore state point pointerId hasModifier

/-- pointerMove branch. -/
def applyPointerMove (state : State) (point : PointQ) (pointerId : Nat)
    (isPrimary : Bool) : State :=
  let primaryPointerPosition := if isPrimary then point else state.primaryPointerPosition
  match state.inputLetters, isPrimary with
  | some letters, true =>
    { state with
      primaryPointerPosition
      inputPreview := placeNewTiles state letters point }
  | _, _ =>
    match state.activeSelection, isPrimary with
    | some sel, true =>
      { state with
        activeSelection := some
          { sel with tileIds := (findTilesOverlappingBox state sel.origin point).map Tile.id }
        primaryPointerPosition }
    | _, _ =>
      match List.lookup pointerId state.activeMoves with
      | none => { state with primaryPointerPosition }
      | some relevantMove =>
        let offsetDelta := subV point relevantMove.origin
        let movingTiles := state.tiles.filter (fun tile => relevantMove.tileIds.contains tile.id)
        let windowCenter := scaleV state.windowDimensions (1 / 2)
        let cornersBBox := calculateBoundingBox
          (movingTiles.map (fun tile => addV [tile.offset, windowCenter, offsetDelta]))
        let tilesBBox : BBox :=
          ⟨cornersBBox.minX, cornersBBox.maxX + tileSize,
           cornersBBox.minY, cornersBBox.maxY + tileSize⟩
        let tilesBBoxTopLeft := (calculateBBoxCorners tilesBBox).1
        let adjustedTopLeft := clampShapeTopLeft tilesBBoxTopLeft
          (calculateBBoxDimensions tilesBBox)
          (calculateFullWindowBBox state.windowDimensions)
        let adjustmentDelta := subV adjustedTopLeft tilesBBoxTopLeft
        let preview := (state.tiles.filter (fun tile => relevantMove.tileIds.contains tile.id)).map
          (fun tile => (tile.id, { tile with offset := addV [tile.offset, offsetDelta, adjustmentDelta] }))
        { state with
          activeMoves := movesInsert state.activeMoves pointerId
            { relevantMove with position := point, preview := preview }
          primaryPointerPosition }

/-- pointerUp branch; while composing, a primary release delegates to
`reducer(state, commitAddTiles)`. -/
def applyPointerUp (state : State) (pointerId : Nat) (isPrimary : Bool) : State :=
  match state.inputLetters, isPrimary with
  | some _, true => arrangeResetWrap state (applyCommitAddTiles state)
  | _, _ =>
    match state.activeSelection, isPrimary with
    | some activeSelection, true =>
      { state with
        activeSelection := none
        selectedTileIds :=
          if activeSelection.deselecting
          then jsDifference state.selectedTileIds activeSelection.tileIds
          else jsUnion state.selectedTileIds activeSelection.tileIds }
    | _, _ =>
      match List.lookup pointerId state.activeMoves with
      | none => state
      | some relevantMove =>
        { state with
          tiles := state.tiles.map (fun tile =>
            (List.lookup tile.id relevantMove.preview).getD tile)
          undoStack := state.undoStack ++ [state.tiles]
          redoStack := []
          activeMoves := state.activeMoves.filter (fun p => !(p.1 == pointerId))
          selectedTileIds :=
            if isPrimary then state.selectedTileIds
            else jsDifference state.selectedTileIds relevantMove.tileIds }

/-- windowResize branch.  NOTE (faithful to the source): the clamp boundary is
computed from `state.windowDimensions`, the dimensions *before* the resize,
even though `windowDimensions` is then replaced by `action.dimensions`. -/
def applyWindowResize (state : State) (dimensions : PointQ) : State :=
  let offsetBBox := calculateSmallOffsetBBox state.windowDimensions
  { state with
    windowDimensions := dimensions
    tiles := state.tiles.map (fun tile =>
      { tile with offset := clampShapeTopLeft tile.offset (tileSize, tileSize) offsetBBox })
    animatingTileMovement := false
    appearingTileIds := [] }

/-- startAddTiles branch. -/
def applyStartAddTiles (state : State) : State :=
  { state with
    inputLetters := some ""
    inputPreview := placeNewTiles state "" state.primaryPointerPosition
    selectedTileIds := []
    animatingTileMovement := false
    appearingTileIds := []
    showingZeroState := false }

/-- backspaceAddTilesInput branch. -/
def applyBackspaceAddTilesInput (state : State) : State :=
  let inputLetters := (state.inputLetters.map (fun t => t.dropRight 1)).getD ""
  { state with
    inputLetters := some inputLetters
    inputPreview := placeNewTiles state inputLetters state.primaryPointerPosition }

/-- changeAddTilesInput branch.  JS string concatenation coerces a null
`inputLetters` to the text "null"; the action is only ever dispatched while
composing, but the coercion is kept for faithfulness. -/
def applyChangeAddTilesInput (state : State) (input : String) : State :=
  let base := match state.inputLetters with
    | some t => t
    | none => "null"
  let inputLetters := base ++ (if input = " " then input else input.trim)
  { state with
    inputLetters := some inputLetters
    inputPreview := placeNewTiles state inputLetters state.primaryPointerPosition }

/-- addTilesFromPrompt branch. -/
def applyAddTilesFromPrompt (state : State) (text : String) : State :=
  let newTiles := placeNewTiles state text
    (state.windowDimensions.1 / 2, state.windowDimensions.2 / 2)
  { state with
    tiles := state.tiles ++ newTiles
    undoStack := state.undoStack ++ [state.tiles]
    redoStack := []
    selectedTileIds := []
    showingZeroState := false
    animatingTileMovement := false
    appearingTileIds := newTiles.map Tile.id
    showingArrangeToLine := false }

/-- selectAll branch. -/
def applySelectAll (state : State) : State :=
  { state with selectedTileIds := state.tiles.map Tile.id }

/-- The ids a shuffle or arrange acts on (the `const tileIds = ...` common to
both branches): the selection when more than one tile is selected, otherwise
every tile. -/
def mutationTargetIds (state : State) : List Nat :=
  if 1 < state.selectedTileIds.length then state.selectedTileIds
  else state.tiles.map Tile.id

/-- shuffle branch. -/
def applyShuffle (env : Env) (fuel : Nat) (state : State) : Option State :=
  shuffleTiles env fuel state (mutationTargetIds state) none

/-- The line-layout half of the arrange branch. -/
def arrangeOnLine (env : Env) (fuel : Nat) (state : State) (tileIds : List Nat)
    (startingOffsets : List PointQ) : Option State :=
  let centroid := roundV (calculateCentroid startingOffsets)
  let targetOffsets := calculateLinearTilePositions
    (addV [centroid, (tileSize / 2, tileSize / 2)])
    tileIds.length
    (calculateSmallOffsetBBox state.windowDimensions)
  (shuffleTiles env fuel state tileIds (some targetOffsets)).map
    (fun st => { st with showingArrangeToLine := false })

/-- The circle-layout half of the arrange branch. -/
def arrangeOnCircle (env : Env) (fuel : Nat) (state : State) (tileIds : List Nat)
    (startingOffsets : List PointQ) : Option State :=
  let centroid := roundV (calculateCentroid startingOffsets)
  let totalCircumferencePx := (tileIds.length : ℚ) * tileSize * (3 / 2)
  let radiusPx := totalCircumferencePx / env.piQ / 2
  let topLeft : PointQ := (centroid.1 - radiusPx, centroid.2 - radiusPx)
  let offsetBBox := calculateSmallOffsetBBox state.windowDimensions
  let adjustedTopLeft := clampShapeTopLeft topLeft
    (radiusPx * 2 + tileSize, radiusPx * 2 + tileSize) offsetBBox
  let adjustedCentroid := roundV (addV [centroid, subV adjustedTopLeft topLeft])
  let theta := env.piQ * 2 / tileIds.length
  let targetOffsets := (List.range tileIds.length).map (fun idx =>
    let angle := theta * idx
    roundV (clampShapeTopLeft
      (addV [adjustedCentroid, (env.cosQ angle * radiusPx, env.sinQ angle * radiusPx)])
      (tileSize, tileSize) offsetBBox))
  (shuffleTiles env fuel state tileIds (some (env.preShuf targetOffsets))).map
    (fun st => { st with showingArrangeToLine := true })

/-- The arrange branch on a given id list: line layout when fewer than 3 tiles
or when the toggle points to line, circle layout otherwise. -/
def arrangeOn (env : Env) (fuel : Nat) (state : State) (tileIds : List Nat) : Option State :=
  let arrangeToLine := tileIds.length < 3 ∨ state.showingArrangeToLine = true
  match startingOffsetsOf state.tiles tileIds with
  | none => none
  | some startingOffsets =>
    if arrangeToLine then arrangeOnLine env fuel state tileIds startingOffsets
    else arrangeOnCircle env fuel state tileIds startingOffsets

/-- arrange branch. -/
def applyArrange (env : Env) (fuel : Nat) (state : State) : Option State :=
  arrangeOn env fuel state (mutationTargetIds state)

/-- The `arrangeToLine` condition of the arrange branch, as a predicate on
states: the next arrange invocation lays the tiles out in a line iff this
holds. -/
def arrangeUsesLine (state : State) : Prop :=
  (mutationTargetIds state).length < 3 ∨ state.showingArrangeToLine = true

instance (state : State) : Decidable (arrangeUsesLine state) := by
  unfold arrangeUsesLine
  infer_instance

/-- delete branch. -/
def applyDelete (state : State) : State :=
  { state with
    tiles :=
      if 0 < state.selectedTileIds.length
      then state.tiles.filter (fun tile => !(state.selectedTileIds.contains tile.id))
      else []
    undoStack := state.undoStack ++ [state.tiles]
    redoStack := []
    selectedTileIds := []
    showingArrangeToLine := false }

/-- undo branch. -/
def applyUndo (state : State) : State :=
  match state.undoStack.getLast? with
  | none => state
  | some newTiles =>
    { state with
      tiles := newTiles
      undoStack := state.undoStack.dropLast
      redoStack := state.tiles :: state.redoStack
      animatingTileMovement := true
      appearingTileIds := jsDifference (newTiles.map Tile.id) (state.tiles.map Tile.id)
      selectedTileIds := jsIntersection (newTiles.map Tile.id) state.selectedTileIds
      activeMoves := []
      showingArrangeToLine := false }

/-- redo branch. -/
def applyRedo (state : State) : State :=
  match state.redoStack.head? with
  | none => state
  | some newTiles =>
    { state with
      tiles := newTiles
      undoStack := state.undoStack ++ [state.tiles]
      redoStack := state.redoStack.tail
      animatingTileMovement := true
      appearingTileIds := jsDifference (newTiles.map Tile.id) (state.tiles.map Tile.id)
      selectedTileIds := jsIntersection (newTiles.map Tile.id) state.selectedTileIds
      activeMoves := []
      showingArrangeToLine := false }

/-- `innerReducer` on every action except keyDown.  The shuffle/arrange
branches may fail to terminate in the source (the reshuffle loop), hence the
`Option`; every other branch always returns `some`. -/
def innerNoKey (env : Env) (fuel : Nat) (state : State) : Action → Option State
  | .keyDown _ => some state  -- unreachable: keyDown is handled by innerReducer
  | .pointerDown point pointerId isPrimary hasModifier =>
    some (applyPointerDown state point pointerId isPrimary hasModifier)
  | .pointerMove point pointerId isPrimary =>
    some (applyPointerMove state point pointerId isPrimary)
  | .pointerUp _ pointerId isPrimary => some (applyPointerUp state pointerId isPrimary)
  | .windowResize dimensions => some (applyWindowResize state dimensions)
  | .startAddTiles => some (applyStartAddTiles state)
  | .backspaceAddTilesInput => some (applyBackspaceAddTilesInput state)
  | .changeAddTilesInput input => some (applyChangeAddTilesInput state input)
  | .cancelAddTiles => some (applyCancelAddTiles state)
  | .commitAddTiles => some (applyCommitAddTiles state)
  | .addTilesFromPrompt text => some (applyAddTilesFromPrompt state text)
  | .selectAll => some (applySelectAll state)
  | .shuffle => applyShuffle env fuel state
  | .arrange => applyArrange env fuel state
  | .delete => some (applyDelete state)
  | .undo => some (applyUndo state)
  | .redo => some (applyRedo state)
  | .enableTouchUI => some { state with useTouchUI := true }
  | .disableTouchUI => some { state with useTouchUI := false }
  | .showHelp => some { state with showingHelp := true }
  | .hideHelp => some { state with showingHelp := false }

/-- `reducer(state, a)` for a non-keyDown action `a`: the inner branch plus
the arrange-toggle wrapper. -/
def reducerNoKey (env : Env) (fuel : Nat) (state : State) (a : Action) : Option State :=
  (innerNoKey env fuel state a).map (arrangeResetWrap state)

/-- The keyDown branch of `innerReducer`: each shortcut re-enters `reducer`
with the matching command action. -/
def innerKeyDown (env : Env) (fuel : Nat) (state : State) (e : KeyEvent) : Option State :=
  let isShortcut := e.ctrlKey || e.metaKey
  if state.showingHelp then
    if e.key = " " ∨ e.key = "Escape" ∨ e.key = "Enter" ∨ e.key = "?" then
      reducerNoKey env fuel state .hideHelp
    else some state
  else if e.key = " " ∧ state.inputLetters = none then
    reducerNoKey env fuel state .startAddTiles
  else if e.key = "Backspace" ∧ state.inputLetters ≠ none then
    reducerNoKey env fuel state .backspaceAddTilesInput
  else if (e.key = "Backspace" ∨ e.key = "Delete") ∧ state.selectedTileIds ≠ [] then
    reducerNoKey env fuel state .delete
  else if e.key = "Escape" ∧ state.inputLetters ≠ none then
    reducerNoKey env fuel state .cancelAddTiles
  else if e.key = "Enter" ∧ state.inputLetters ≠ none then
    reducerNoKey env fuel state .commitAddTiles
  else if e.key = "a" ∧ isShortcut = true then
    reducerNoKey env fuel state .selectAll
  else if e.key = "s" ∧ e.shiftKey = false ∧ isShortcut = true then
    reducerNoKey env fuel state .shuffle
  else if e.key = "s" ∧ e.shiftKey = true ∧ isShortcut = true then
    reducerNoKey env fuel state .arrange
  else if e.key = "z" ∧ e.shiftKey = false ∧ isShortcut = true then
    reducerNoKey env fuel state .undo
  else if ((e.key = "z" ∧ e.shiftKey = true) ∨ e.key = "y") ∧ isShortcut = true then
    reducerNoKey env fuel state .redo
  else if e.key = "?" ∧ state.showingHelp = false ∧ state.inputLetters = none then
    reducerNoKey env fuel state .showHelp
  else some state

/-- innerReducer (part_002). -/
def innerReducer (env : Env) (fuel : Nat) (state : State) : Action → Option State
  | .keyDown e => innerKeyDown env fuel state e
  | a => innerNoKey env fuel state a

/-- The exported `reducer` (part_002): `innerReducer` followed by the
arrange-toggle reset (the debounced URL write is an external side effect). -/
def reducer (env : Env) (fuel : Nat) (state : State) (a : Action) : Option State :=
  (innerReducer env fuel state a).map (arrangeResetWrap state)

/-- Run a sequence of actions through the reducer. -/
def runActions (env : Env) (fuel : Nat) (state : State) (acts : List Action) : Option State :=
  acts.foldlM (fun st a => reducer env fuel st a) state

/-! ## Concrete fixtures for the verification theorems

`env1` is one concrete environment: a deterministic stand-in for lodash
`shuffle` (reversal, which is a permutation), the identity for the circle
branch's pre-shuffle, linear stand-ins for cos/sin and 3 for π.  The claims
proved against arbitrary `Env` do not depend on these choices; the fixtures
only instantiate hypotheses on concrete runs. -/

def env1 : Env where
  shuf := fun _ l => l.reverse
  preShuf := id
  cosQ := fun x => x
  sinQ := fun _ => 0
  piQ := 3

def c1start : State := initialState 1000 800

/-- The state after the semantic mutation `addTilesFromPrompt "a"` on the
initial state. -/
def c1s : State := (reducer env1 5 c1start (.addTilesFromPrompt "a")).getD c1start

def c1u : State := (reducer env1 5 c1s .undo).getD c1s

def c1r : State := (reducer env1 5 c1u .redo).getD c1u

def c2s : State :=
  { initialState 1000 800 with
    tiles := [{ id := 1, char := 'a', offset := (0, 0), ghost := false }]
    selectedTileIds := [1] }

def c2r : State := (reducer env1 5 c2s .delete).getD c2s

def c3s : State :=
  { initialState 1000 800 with
    tiles := [{ id := 1, char := 'a', offset := (400, 200), ghost := false }] }

def c3r : State := (reducer env1 5 c3s (.windowResize (300, 200))).getD c3s

def c4s : State :=
  { initialState 1000 800 with
    tiles := [{ id := 1, char := 'a', offset := (0, 0), ghost := false }] }

def c5s0 : State :=
  { initialState 1000 800 with
    tiles :=
      [ { id := 1, char := 'a', offset := (0, 0), ghost := false }
      , { id := 2, char := 'b', offset := (10, 0), ghost := false }
      , { id := 3, char := 'c', offset := (20, 0), ghost := false } ] }

def c5mid : Option State := reducer env1 9 c5s0 .arrange

def c5s1 : State := c5mid.getD c5s0

def c5next : Option State := c5mid.bind (fun s => reducer env1 9 s .selectAll)

def c5third : Option State := c5next.bind (fun s => reducer env1 9 s .arrange)

def c6box : BBox := ⟨0, 5, 0, 5⟩

def c6boxW : BBox := ⟨0, 100, 0, 100⟩

/-- Action sequence: add one tile, start a selection box away from it, drag
the box over the tile, undo (removing the tile) and release the pointer. -/
def c7acts : List Action :=
  [ .addTilesFromPrompt "a"
  , .pointerDown (600, 700) 7 true false
  , .pointerMove (400, 300) 7 true
  , .undo
  , .pointerUp (400, 300) 7 true ]

def c7bad : State := (runActions env1 5 (initialState 1000 800) c7acts).getD (initialState 1000 800)

def c8t1 : Tile := { id := 1, char := 'a', offset := (0, 0), ghost := false }

def c8t2 : Tile := { id := 2, char := 'b', offset := (100, 0), ghost := false }

def c8mvA : ActiveMove :=
  { origin := (200, 200), position := (250, 250), tileIds := [2]
    preview := [(2, { id := 2, char := 'b', offset := (150, 50), ghost := false })] }

def c8mvB : ActiveMove :=
  { origin := (10, 10), position := (20, 20), tileIds := [1]
    preview := [(1, { id := 1, char := 'a', offset := (10, 10), ghost := false })] }

def c8s : State :=
  { initialState 1000 800 with
    tiles := [c8t1, c8t2]
    activeMoves := [(3, c8mvA), (5, c8mvB)] }

def c8r : State := (reducer env1 5 c8s (.pointerUp (250, 250) 3 true)).getD c8s

def c10s : State :=
  { initialState 1000 800 with
    tiles :=
      [ { id := 1, char := 'a', offset := (0, 0), ghost := false }
      , { id := 2, char := 'b', offset := (5, 5), ghost := false } ] }

/-! ## Helper lemmas -/

theorem arrangeResetWrap_tiles (s x : State) : (arrangeResetWrap s x).tiles = x.tiles := by
  unfold arrangeResetWrap
  split <;> rfl

theorem arrangeResetWrap_undoStack (s x : State) :
    (arrangeResetWrap s x).undoStack = x.undoStack := by
  unfold arrangeResetWrap
  split <;> rfl

theorem arrangeResetWrap_redoStack (s x : State) :
    (arrangeResetWrap s x).redoStack = x.redoStack := by
  unfold arrangeResetWrap
  split <;> rfl

theorem arrangeResetWrap_selectedTileIds (s x : State) :
    (arrangeResetWrap s x).selectedTileIds = x.selectedTileIds := by
  unfold arrangeResetWrap
  split <;> rfl

theorem arrangeResetWrap_activeMoves (s x : State) :
    (arrangeResetWrap s x).activeMoves = x.activeMoves := by
  unfold arrangeResetWrap
  split <;> rfl

theorem arrangeResetWrap_of_flag_false (s x : State) (h : x.showingArrangeToLine = false) :
    arrangeResetWrap s x = x := by
  unfold arrangeResetWrap
  rw [h]
  simp

theorem arrangeResetWrap_of_sel_eq (s x : State) (h : s.selectedTileIds = x.selectedTileIds) :
    arrangeResetWrap s x = x := by
  unfold arrangeResetWrap
  rw [h]
  simp

theorem arrangeResetWrap_idem (s x : State) :
    arrangeResetWrap s (arrangeResetWrap s x) = arrangeResetWrap s x := by
  by_cases h : x.showingArrangeToLine = true ∧ s.selectedTileIds ≠ x.selectedTileIds
  · have h1 : arrangeResetWrap s x = { x with showingArrangeToLine := false } := by
      simp only [arrangeResetWrap]
      rw [if_pos h]
    rw [h1, arrangeResetWrap_of_flag_false _ _ rfl]
  · have h1 : arrangeResetWrap s x = x := by
      simp only [arrangeResetWrap]
      rw [if_neg h]
    rw [h1, h1]

theorem shuffleLoop_some_ne (next : Nat → List PointQ → List PointQ)
    (starting : List PointQ) :
    ∀ fuel k offsets res, shuffleLoop next starting fuel k offsets = some res →
      res ≠ starting := by
  intro fuel
  induction fuel with
  | zero =>
    intro k offsets res h
    unfold shuffleLoop at h
    split at h
    · exact absurd h (by simp)
    · rename_i hne
      rw [Option.some_inj] at h
      rw [← h]
      exact hne
  | succ n ih =>
    intro k offsets res h
    unfold shuffleLoop at h
    split at h
    · exact ih (k + 1) _ res h
    · rename_i hne
      rw [Option.some_inj] at h
      rw [← h]
      exact hne

theorem shuffleLoop_small_none (next : Nat → List PointQ → List PointQ)
    (starting : List PointQ) (hlen : starting.length ≤ 1)
    (hperm : ∀ k l, (next k l).Perm l) :
    ∀ fuel k, shuffleLoop next starting fuel k starting = none := by
  have hfix : ∀ k, next k starting = starting := by
    intro k
    match starting, hlen with
    | [], _ => exact (hperm k []).eq_nil
    | [a], _ => exact List.perm_singleton.mp (hperm k [a])
  intro fuel
  induction fuel with
  | zero =>
    intro k
    unfold shuffleLoop
    simp
  | succ n ih =>
    intro k
    unfold shuffleLoop
    rw [if_pos rfl, hfix k]
    exact ih (k + 1)

theorem shuffleTiles_some_fields (env : Env) (fuel : Nat) (s : State)
    (ids : List Nat) (newOffsets : Option (List PointQ)) (s' : State)
    (h : shuffleTiles env fuel s ids newOffsets = some s') :
    s'.undoStack = s.undoStack ++ [s.tiles] ∧ s'.redoStack = [] ∧
    s'.selectedTileIds = s.selectedTileIds ∧
    s'.tiles.map Tile.id = s.tiles.map Tile.id ∧
    s'.windowDimensions = s.windowDimensions ∧
    s'.inputLetters = s.inputLetters ∧
    s'.showingArrangeToLine = s.showingArrangeToLine ∧
    s'.activeMoves = s.activeMoves ∧
    s'.activeSelection = s.activeSelection := by
  unfold shuffleTiles at h
  rcases h1 : startingOffsetsOf s.tiles ids with _ | so
  · rw [h1] at h
    exact absurd h (by simp)
  · rw [h1] at h
    simp only at h
    rcases h2 : shuffleLoop env.shuf so fuel 0 (newOffsets.getD so) with _ | offs
    · rw [h2] at h
      exact absurd h (by simp)
    · rw [h2] at h
      simp only [Option.some_inj] at h
      subst h
      refine ⟨rfl, rfl, rfl, ?_, rfl, rfl, rfl, rfl, rfl⟩
      simp only [List.map_map]
      apply List.map_congr_left
      intro t _
      simp only [Function.comp]
      cases List.lookup t.id (ids.zip offs) <;> rfl

theorem mutationTargetIds_congr (s x : State)
    (hsel : x.selectedTileIds = s.selectedTileIds)
    (hids : x.tiles.map Tile.id = s.tiles.map Tile.id) :
    mutationTargetIds x = mutationTargetIds s := by
  unfold mutationTargetIds
  rw [hsel, hids]

theorem arrangeOnLine_some (env : Env) (fuel : Nat) (s : State) (ids : List Nat)
    (so : List PointQ) (x : State)
    (h : arrangeOnLine env fuel s ids so = some x) :
    x.showingArrangeToLine = false ∧ x.undoStack = s.undoStack ++ [s.tiles] ∧
    x.redoStack = [] ∧ x.selectedTileIds = s.selectedTileIds ∧
    x.tiles.map Tile.id = s.tiles.map Tile.id := by
  unfold arrangeOnLine at h
  obtain ⟨y, hy, hxy⟩ := Option.map_eq_some'.mp h
  obtain ⟨h1, h2, h3, h4, _⟩ := shuffleTiles_some_fields env fuel s ids _ y hy
  subst hxy
  exact ⟨rfl, h1, h2, h3, h4⟩

theorem arrangeOnCircle_some (env : Env) (fuel : Nat) (s : State) (ids : List Nat)
    (so : List PointQ) (x : State)
    (h : arrangeOnCircle env fuel s ids so = some x) :
    x.showingArrangeToLine = true ∧ x.undoStack = s.undoStack ++ [s.tiles] ∧
    x.redoStack = [] ∧ x.selectedTileIds = s.selectedTileIds ∧
    x.tiles.map Tile.id = s.tiles.map Tile.id := by
  unfold arrangeOnCircle at h
  obtain ⟨y, hy, hxy⟩ := Option.map_eq_some'.mp h
  obtain ⟨h1, h2, h3, h4, _⟩ := shuffleTiles_some_fields env fuel s ids _ y hy
  subst hxy
  exact ⟨rfl, h1, h2, h3, h4⟩

theorem arrangeOn_some (env : Env) (fuel : Nat) (s : State) (ids : List Nat) (x : State)
    (h : arrangeOn env fuel s ids = some x) :
    ((ids.length < 3 ∨ s.showingArrangeToLine = true) → x.showingArrangeToLine = false) ∧
    (¬(ids.length < 3 ∨ s.showingArrangeToLine = true) → x.showingArrangeToLine = true) ∧
    x.undoStack = s.undoStack ++ [s.tiles] ∧ x.redoStack = [] ∧
    x.selectedTileIds = s.selectedTileIds ∧
    x.tiles.map Tile.id = s.tiles.map Tile.id := by
  unfold arrangeOn at h
  rcases hso : startingOffsetsOf s.tiles ids with _ | so
  · rw [hso] at h
    exact absurd h (by simp)
  · rw [hso] at h
    simp only at h
    by_cases hal : ids.length < 3 ∨ s.showingArrangeToLine = true
    · rw [if_pos hal] at h
      obtain ⟨hf, h1, h2, h3, h4⟩ := arrangeOnLine_some env fuel s ids so x h
      exact ⟨fun _ => hf, fun hc => absurd hal hc, h1, h2, h3, h4⟩
    · rw [if_neg hal] at h
      obtain ⟨hf, h1, h2, h3, h4⟩ := arrangeOnCircle_some env fuel s ids so x h
      exact ⟨fun hc => absurd hc hal, fun _ => hf, h1, h2, h3, h4⟩

theorem lookup_filter_ne (l : List (Nat × ActiveMove)) (a b : Nat) (h : b ≠ a) :
    List.lookup b (l.filter (fun p => !(p.1 == a))) = List.lookup b l := by
  induction l with
  | nil => rfl
  | cons hd tl ih =>
    obtain ⟨k, v⟩ := hd
    by_cases hka : k = a
    · subst hka
      have hbk : (b == k) = false := by
        simp only [beq_eq_false_iff_ne, ne_eq]
        exact h
      simp [List.filter_cons, List.lookup, hbk, ih]
    · by_cases hbk : b = k
      · simp [List.filter_cons, hka, List.lookup, hbk]
      · simp [List.filter_cons, hka, List.lookup, hbk, ih]

/-! ## Claim theorems -/

/-- C6 (amended): clampShapeTopLeft returns an already-in-bounds top-left
unchanged, and on any axis where BOTH the near edge violates the boundary
minimum and the far edge violates the boundary maximum (which forces the
shape's dimension to exceed the boundary extent) the coordinate on that axis
is left unchanged.  (The original claim's condition "dimension exceeds the
boundary extent" alone is refuted by `C6_counterexample`.) -/
theorem C6_clampShapeTopLeft_behaviour (tl dims : PointQ) (b : BBox) :
    (b.minX ≤ tl.1 ∧ tl.1 + dims.1 ≤ b.maxX ∧ b.minY ≤ tl.2 ∧ tl.2 + dims.2 ≤ b.maxY →
      clampShapeTopLeft tl dims b = tl) ∧
    (tl.1 < b.minX ∧ b.maxX < tl.1 + dims.1 → (clampShapeTopLeft tl dims b).1 = tl.1) ∧
    (tl.2 < b.minY ∧ b.maxY < tl.2 + dims.2 → (clampShapeTopLeft tl dims b).2 = tl.2) := by
  refine ⟨fun h => ?_, fun h => ?_, fun h => ?_⟩ <;> unfold clampShapeTopLeft <;> dsimp only
  · obtain ⟨h1, h2, h3, h4⟩ := h
    rw [if_neg (fun hc => absurd hc.1 (not_lt.mpr h1)), if_neg (not_lt.mpr h1),
      if_neg (not_lt.mpr h2), if_neg (fun hc => absurd hc.1 (not_lt.mpr h3)),
      if_neg (not_lt.mpr h3), if_neg (not_lt.mpr h4)]
  · rw [if_pos ⟨h.1, h.2⟩]
  · rw [if_pos ⟨h.1, h.2⟩]

/-- C6 counterexample: for the shape at (0,0) with dimensions (10,10) inside
the boundary box [0,5]×[0,5], the dimension exceeds the boundary extent on the
x axis, yet the returned x coordinate is changed (snapped to maxX − width =
−5), refuting "dimension > extent on an axis ⟹ that axis unchanged". -/
theorem C6_counterexample :
    c6box.maxX - c6box.minX < 10 ∧
    clampShapeTopLeft (0, 0) (10, 10) c6box = (-5, -5) ∧
    (clampShapeTopLeft (0, 0) (10, 10) c6box).1 ≠ 0 := by
  with_unfolding_all decide

/-- C6 witness: an in-bounds shape is returned unchanged. -/
theorem C6_witness :
    (c6boxW.minX ≤ 10 ∧ 10 + 30 ≤ c6boxW.maxX ∧ c6boxW.minY ≤ 20 ∧ 20 + 30 ≤ c6boxW.maxY) ∧
    clampShapeTopLeft (10, 20) (30, 30) c6boxW = (10, 20) := by
  have h : c6boxW.minX ≤ (10:ℚ) ∧ (10:ℚ) + 30 ≤ c6boxW.maxX ∧
      c6boxW.minY ≤ (20:ℚ) ∧ (20:ℚ) + 30 ≤ c6boxW.maxY := by
    with_unfolding_all decide
  exact ⟨h, (C6_clampShapeTopLeft_behaviour (10, 20) (30, 30) c6boxW).1 h⟩

set_option maxRecDepth 200000 in
/-- C3 (code bug): on windowResize the source computes the clamp boundary
from `state.windowDimensions` — the dimensions *before* the resize — so a tile
is left at an offset outside the boundary box of the new dimensions.  Concrete
run: window 1000×800 shrunk to 300×200; the tile at offset (400, 200) is left
unchanged even though the claim (clamping into the new dimensions' box) would
move it; the undo and redo stacks are unchanged (that part of the claim
matches the code). -/
theorem C3_windowResize_uses_stale_dimensions :
    reducer env1 5 c3s (.windowResize (300, 200)) = some c3r ∧
    c3r.windowDimensions = (300, 200) ∧
    c3r.tiles.map Tile.offset = [(400, 200)] ∧
    clampShapeTopLeft (400, 200) (tileSize, tileSize)
      (calculateSmallOffsetBBox (300, 200)) ≠ (400, 200) ∧
    c3r.undoStack = c3s.undoStack ∧ c3r.redoStack = c3s.redoStack := by
  with_unfolding_all decide

set_option maxRecDepth 200000 in
/-- C7 (code bug): the selection-subset invariant is violated on a concrete
reachable run.  Add a tile, start a rubber-band selection next to it, drag the
selection box over the tile, undo (which removes the tile but leaves
`activeSelection` untouched), then release: pointer-up unions the stale id 1
into `selectedTileIds`, leaving a selection that references no existing
tile. -/
theorem C7_selection_references_deleted_tile :
    runActions env1 5 (initialState 1000 800) c7acts = some c7bad ∧
    c7bad.selectedTileIds = [1] ∧ c7bad.tiles = [] := by
  with_unfolding_all decide

/-- C4 (code bug): a shuffle result, when the reshuffle loop terminates, is
never the starting offset assignment (first conjunct — this half of the claim
matches the code); but for a single tile the loop never terminates, because
every permutation of a one-element offset list equals the input: on the
one-tile state `c4s` the shuffle action diverges (returns `none`) for every
fuel bound and every environment whose `shuffle` produces permutations,
instead of being the claimed terminating no-op (second conjunct). -/
theorem C4_shuffle_never_identity_but_singleton_diverges :
    (∀ next starting fuel k offsets res,
      shuffleLoop next starting fuel k offsets = some res → res ≠ starting) ∧
    (∀ env fuel, (∀ k l, (env.shuf k l).Perm l) →
      reducer env fuel c4s .shuffle = none) := by
  constructor
  · exact fun next starting fuel k offsets res h =>
      shuffleLoop_some_ne next starting fuel k offsets res h
  · intro env fuel hperm
    have hshuffle : applyShuffle env fuel c4s = none := by
      have h0 : applyShuffle env fuel c4s =
          shuffleTiles env fuel c4s [1] none := rfl
      rw [h0]
      unfold shuffleTiles
      rw [show startingOffsetsOf c4s.tiles [1] = some [((0:ℚ), (0:ℚ))] from rfl]
      simp only [Option.getD_none]
      rw [shuffleLoop_small_none env.shuf [((0:ℚ), (0:ℚ))] (by decide) hperm fuel 0]
    have h1 : reducer env fuel c4s .shuffle =
        (applyShuffle env fuel c4s).map (arrangeResetWrap c4s) := rfl
    rw [h1, hshuffle]
    rfl

/-- C4 witness: the loop-exit conclusion at a concrete instance (a returned
offset list differs from the starting one), and the divergence conclusion for
the concrete environment `env1` (whose shuffle stand-in, reversal, is a
permutation). -/
theorem C4_witness :
    ([((1:ℚ), (1:ℚ))] : List PointQ) ≠ [((0:ℚ), (0:ℚ))] ∧
    reducer env1 20 c4s .shuffle = none := by
  constructor
  · exact C4_shuffle_never_identity_but_singleton_diverges.1 env1.shuf
      [((0:ℚ), (0:ℚ))] 0 0 [((1:ℚ), (1:ℚ))] [((1:ℚ), (1:ℚ))] (by decide)
  · exact C4_shuffle_never_identity_but_singleton_diverges.2 env1 20
      (fun _ l => l.reverse_perm)

/-- C9: guarded actions never fail: undo with an empty undo stack returns the
state unchanged; commitAddTiles with falsy (empty or absent) composition text
reduces to exactly `reducer(state, cancelAddTiles)`, adding no tiles and
pushing nothing onto the undo stack; and delete with an empty selection is the
defined total clear-all transition (no thrown failure). -/
theorem C9_guarded_actions_total :
    (∀ env fuel s, s.undoStack = [] → reducer env fuel s .undo = some s) ∧
    (∀ env fuel s, jsTruthyStr s.inputLetters = false →
      reducer env fuel s .commitAddTiles = reducer env fuel s .cancelAddTiles ∧
      (reducer env fuel s .commitAddTiles).map State.tiles = some s.tiles ∧
      (reducer env fuel s .commitAddTiles).map State.undoStack = some s.undoStack) ∧
    (∀ env fuel s, s.selectedTileIds = [] →
      (reducer env fuel s .delete).map State.tiles = some [] ∧
      (reducer env fuel s .delete).map State.undoStack = some (s.undoStack ++ [s.tiles])) := by
  refine ⟨fun env fuel s h => ?_, fun env fuel s h => ?_, fun env fuel s h => ?_⟩
  · have h1 : applyUndo s = s := by
      unfold applyUndo
      rw [h]
      rfl
    rw [show reducer env fuel s .undo = some (arrangeResetWrap s (applyUndo s)) from rfl,
      h1, arrangeResetWrap_of_sel_eq s s rfl]
  · have h1 : applyCommitAddTiles s = arrangeResetWrap s (applyCancelAddTiles s) := by
      unfold applyCommitAddTiles
      rw [h]
      simp
    have h2 : reducer env fuel s .commitAddTiles =
        some (arrangeResetWrap s (applyCommitAddTiles s)) := rfl
    have h3 : reducer env fuel s .cancelAddTiles =
        some (arrangeResetWrap s (applyCancelAddTiles s)) := rfl
    rw [h2, h3, h1, arrangeResetWrap_idem]
    refine ⟨rfl, ?_, ?_⟩ <;>
      simp only [Option.map_some', arrangeResetWrap_tiles, arrangeResetWrap_undoStack] <;> rfl
  · have h1 : reducer env fuel s .delete = some (arrangeResetWrap s (applyDelete s)) := rfl
    rw [h1]
    simp only [Option.map_some', arrangeResetWrap_tiles, arrangeResetWrap_undoStack]
    constructor
    · unfold applyDelete
      rw [h]
      simp
    · rfl

/-- C9 witness: undo on the initial state (empty undo stack) is an identity
transition. -/
theorem C9_witness :
    (initialState 1000 800).undoStack = [] ∧
    reducer env1 3 (initialState 1000 800) .undo = some (initialState 1000 800) :=
  ⟨rfl, C9_guarded_actions_total.1 env1 3 (initialState 1000 800) rfl⟩

/-- C10: shuffle and arrange act on the selection exactly when more than one
tile is selected, and on the id list of the entire tile list otherwise (zero
or one selected tile). -/
theorem C10_shuffle_arrange_target_ids :
    (∀ env fuel s, 1 < s.selectedTileIds.length →
      reducer env fuel s .shuffle =
        (shuffleTiles env fuel s s.selectedTileIds none).map (arrangeResetWrap s)) ∧
    (∀ env fuel s, ¬ 1 < s.selectedTileIds.length →
      reducer env fuel s .shuffle =
        (shuffleTiles env fuel s (s.tiles.map Tile.id) none).map (arrangeResetWrap s)) ∧
    (∀ env fuel s, 1 < s.selectedTileIds.length →
      reducer env fuel s .arrange =
        (arrangeOn env fuel s s.selectedTileIds).map (arrangeResetWrap s)) ∧
    (∀ env fuel s, ¬ 1 < s.selectedTileIds.length →
      reducer env fuel s .arrange =
        (arrangeOn env fuel s (s.tiles.map Tile.id)).map (arrangeResetWrap s)) := by
  have hs : ∀ env fuel (s : State), reducer env fuel s .shuffle =
      (shuffleTiles env fuel s (mutationTargetIds s) none).map (arrangeResetWrap s) :=
    fun _ _ _ => rfl
  have ha : ∀ env fuel (s : State), reducer env fuel s .arrange =
      (arrangeOn env fuel s (mutationTargetIds s)).map (arrangeResetWrap s) :=
    fun _ _ _ => rfl
  refine ⟨fun env fuel s h => ?_, fun env fuel s h => ?_,
    fun env fuel s h => ?_, fun env fuel s h => ?_⟩
  · rw [hs, mutationTargetIds, if_pos h]
  · rw [hs, mutationTargetIds, if_neg h]
  · rw [ha, mutationTargetIds, if_pos h]
  · rw [ha, mutationTargetIds, if_neg h]

/-- C10 witness: on a state with two tiles and an empty selection, shuffle
acts on the whole tile list. -/
theorem C10_witness :
    ¬ 1 < c10s.selectedTileIds.length ∧
    reducer env1 4 c10s .shuffle =
      (shuffleTiles env1 4 c10s (c10s.tiles.map Tile.id) none).map (arrangeResetWrap c10s) :=
  ⟨by decide, C10_shuffle_arrange_target_ids.2.1 env1 4 c10s (by decide)⟩

/-- C2: each semantic mutation — commit of added tiles (with non-empty
composition text), a pointer-up committing an active move, shuffle, arrange
(whenever the reshuffle loop terminates), and delete — produces a state whose
undo stack is the previous undo stack with the pre-mutation tile list
appended and whose redo stack is empty. -/
theorem C2_semantic_mutations_push_undo_clear_redo :
    (∀ env fuel s s', reducer env fuel s .commitAddTiles = some s' →
      jsTruthyStr s.inputLetters = true →
      s'.undoStack = s.undoStack ++ [s.tiles] ∧ s'.redoStack = []) ∧
    (∀ env fuel s pt pid prim mv s',
      reducer env fuel s (.pointerUp pt pid prim) = some s' →
      s.inputLetters = none → s.activeSelection = none →
      List.lookup pid s.activeMoves = some mv →
      s'.undoStack = s.undoStack ++ [s.tiles] ∧ s'.redoStack = []) ∧
    (∀ env fuel s s', reducer env fuel s .shuffle = some s' →
      s'.undoStack = s.undoStack ++ [s.tiles] ∧ s'.redoStack = []) ∧
    (∀ env fuel s s', reducer env fuel s .arrange = some s' →
      s'.undoStack = s.undoStack ++ [s.tiles] ∧ s'.redoStack = []) ∧
    (∀ env fuel s s', reducer env fuel s .delete = some s' →
      s'.undoStack = s.undoStack ++ [s.tiles] ∧ s'.redoStack = []) := by
  refine ⟨fun env fuel s s' hred htr => ?_, fun env fuel s pt pid prim mv s' hred h1 h2 h3 => ?_,
    fun env fuel s s' hred => ?_, fun env fuel s s' hred => ?_, fun env fuel s s' hred => ?_⟩
  · have h0 : reducer env fuel s .commitAddTiles =
        some (arrangeResetWrap s (applyCommitAddTiles s)) := rfl
    rw [h0, Option.some_inj] at hred
    subst hred
    rw [arrangeResetWrap_undoStack, arrangeResetWrap_redoStack]
    unfold applyCommitAddTiles
    rw [htr]
    simp
  · have h0 : reducer env fuel s (.pointerUp pt pid prim) =
        some (arrangeResetWrap s (applyPointerUp s pid prim)) := rfl
    rw [h0, Option.some_inj] at hred
    subst hred
    rw [arrangeResetWrap_undoStack, arrangeResetWrap_redoStack]
    unfold applyPointerUp
    rw [h1, h2, h3]
    cases prim <;> simp
  · have h0 : reducer env fuel s .shuffle =
        (shuffleTiles env fuel s (mutationTargetIds s) none).map (arrangeResetWrap s) := rfl
    rw [h0] at hred
    obtain ⟨x, hx, hwx⟩ := Option.map_eq_some'.mp hred
    obtain ⟨hu, hr, -⟩ := shuffleTiles_some_fields env fuel s _ none x hx
    subst hwx
    rw [arrangeResetWrap_undoStack, arrangeResetWrap_redoStack]
    exact ⟨hu, hr⟩
  · have h0 : reducer env fuel s .arrange =
        (arrangeOn env fuel s (mutationTargetIds s)).map (arrangeResetWrap s) := rfl
    rw [h0] at hred
    obtain ⟨x, hx, hwx⟩ := Option.map_eq_some'.mp hred
    obtain ⟨-, -, hu, hr, -, -⟩ := arrangeOn_some env fuel s _ x hx
    subst hwx
    rw [arrangeResetWrap_undoStack, arrangeResetWrap_redoStack]
    exact ⟨hu, hr⟩
  · have h0 : reducer env fuel s .delete =
        some (arrangeResetWrap s (applyDelete s)) := rfl
    rw [h0, Option.some_inj] at hred
    subst hred
    rw [arrangeResetWrap_undoStack, arrangeResetWrap_redoStack]
    exact ⟨rfl, rfl⟩

set_option maxRecDepth 200000 in
/-- C2 witness: delete on a concrete one-tile state pushes the pre-delete
tile list and clears the redo stack. -/
theorem C2_witness :
    reducer env1 5 c2s .delete = some c2r ∧
    c2r.undoStack = c2s.undoStack ++ [c2s.tiles] ∧ c2r.redoStack = [] := by
  have h : reducer env1 5 c2s .delete = some c2r := by with_unfolding_all decide
  exact ⟨h, C2_semantic_mutations_push_undo_clear_redo.2.2.2.2 env1 5 c2s c2r h⟩

/-- C8: pointer-up on pointer `a` while pointer `b` also has an active move
commits only `a`'s preview: every tile without an entry in `a`'s preview
keeps its list position and offset unchanged, the tile count is unchanged,
and `b`'s activeMoves entry (preview included) is still present and
unchanged. -/
theorem C8_pointerUp_commits_only_releasing_pointer
    (env : Env) (fuel : Nat) (s : State) (pt : PointQ) (a b : Nat) (prim : Bool)
    (ap bp : ActiveMove) (s' : State)
    (hred : reducer env fuel s (.pointerUp pt a prim) = some s')
    (hin : s.inputLetters = none) (hsel : s.activeSelection = none)
    (hba : b ≠ a)
    (ha : List.lookup a s.activeMoves = some ap)
    (hb : List.lookup b s.activeMoves = some bp) :
    List.lookup b s'.activeMoves = some bp ∧
    s'.tiles.length = s.tiles.length ∧
    (∀ (i : Nat) (t : Tile), s.tiles[i]? = some t →
      List.lookup t.id ap.preview = none → s'.tiles[i]? = some t) := by
  have h0 : reducer env fuel s (.pointerUp pt a prim) =
      some (arrangeResetWrap s (applyPointerUp s a prim)) := rfl
  rw [h0, Option.some_inj] at hred
  subst hred
  have hmoves : (applyPointerUp s a prim).activeMoves =
      s.activeMoves.filter (fun p => !(p.1 == a)) := by
    unfold applyPointerUp
    rw [hin, hsel, ha]
  have htiles : (applyPointerUp s a prim).tiles =
      s.tiles.map (fun tile => (List.lookup tile.id ap.preview).getD tile) := by
    unfold applyPointerUp
    rw [hin, hsel, ha]
  refine ⟨?_, ?_, ?_⟩
  · rw [arrangeResetWrap_activeMoves, hmoves, lookup_filter_ne _ _ _ hba, hb]
  · rw [arrangeResetWrap_tiles, htiles, List.length_map]
  · intro i t hget hlook
    rw [arrangeResetWrap_tiles, htiles, List.getElem?_map, hget]
    simp [hlook]

set_option maxRecDepth 200000 in
/-- C8 witness: with pointer 3 dragging tile 2 and pointer 5 dragging tile 1,
releasing pointer 3 leaves pointer 5's move (and tile 1) untouched. -/
theorem C8_witness :
    reducer env1 5 c8s (.pointerUp (250, 250) 3 true) = some c8r ∧
    List.lookup 5 c8r.activeMoves = some c8mvB ∧
    c8r.tiles[0]? = some c8t1 := by
  have h : reducer env1 5 c8s (.pointerUp (250, 250) 3 true) = some c8r := by
    with_unfolding_all decide
  have hm := C8_pointerUp_commits_only_releasing_pointer env1 5 c8s (250, 250) 3 5 true
    c8mvA c8mvB c8r h rfl rfl (by decide) (by decide) (by decide)
  exact ⟨h, hm.1, hm.2.2 0 c8t1 rfl (by decide)⟩

/-- C1 (amended): undo followed by redo restores the tiles, the undo stack
and the redo stack of any state with a nonempty undo stack (in particular any
state just produced by a semantic mutation) exactly; full state equality
fails because undo/redo also set the animation flag, recompute
appearing/selected ids, clear active moves and reset the arrange toggle
(see `C1_counterexample`). -/
theorem C1_undo_then_redo_restores_history
    (env : Env) (fuel : Nat) (s u r : State)
    (hu : reducer env fuel s .undo = some u)
    (hr : reducer env fuel u .redo = some r)
    (hne : s.undoStack ≠ []) :
    r.tiles = s.tiles ∧ r.undoStack = s.undoStack ∧ r.redoStack = s.redoStack := by
  rcases List.eq_nil_or_concat s.undoStack with h | ⟨L, a, hL⟩
  · exact absurd h hne
  rw [List.concat_eq_append] at hL
  have hu0 : reducer env fuel s .undo = some (arrangeResetWrap s (applyUndo s)) := rfl
  rw [hu0, Option.some_inj] at hu
  have happ : applyUndo s =
      { s with
        tiles := a
        undoStack := L
        redoStack := s.tiles :: s.redoStack
        animatingTileMovement := true
        appearingTileIds := jsDifference (a.map Tile.id) (s.tiles.map Tile.id)
        selectedTileIds := jsIntersection (a.map Tile.id) s.selectedTileIds
        activeMoves := []
        showingArrangeToLine := false } := by
    unfold applyUndo
    rw [hL, List.getLast?_concat, List.dropLast_concat]
  have hu1 : u = applyUndo s := by
    rw [← hu, happ, arrangeResetWrap_of_flag_false _ _ rfl]
  have hr0 : reducer env fuel u .redo = some (arrangeResetWrap u (applyRedo u)) := rfl
  rw [hr0, Option.some_inj] at hr
  have happR : applyRedo u =
      { u with
        tiles := s.tiles
        undoStack := L ++ [a]
        redoStack := s.redoStack
        animatingTileMovement := true
        appearingTileIds := jsDifference (s.tiles.map Tile.id) (u.tiles.map Tile.id)
        selectedTileIds := jsIntersection (s.tiles.map Tile.id) u.selectedTileIds
        activeMoves := []
        showingArrangeToLine := false } := by
    unfold applyRedo
    rw [hu1, happ]
    rfl
  have hr1 : r = applyRedo u := by
    rw [← hr, happR, arrangeResetWrap_of_flag_false _ _ rfl]
  rw [hr1, happR, hL]
  exact ⟨rfl, rfl, rfl⟩

set_option maxRecDepth 200000 in
/-- C1 counterexample: from the initial state (window 1000×800), the semantic
mutation `addTilesFromPrompt "a"` reaches `c1s`; undo then redo yields `c1r`,
which differs from `c1s` (`animatingTileMovement` is `true` in `c1r` but
`false` in `c1s`), refuting full state equality of `redo(undo(s))` with `s`. -/
theorem C1_counterexample :
    reducer env1 5 c1start (.addTilesFromPrompt "a") = some c1s ∧
    reducer env1 5 c1s .undo = some c1u ∧
    reducer env1 5 c1u .redo = some c1r ∧
    c1r ≠ c1s ∧
    c1r.animatingTileMovement = true ∧ c1s.animatingTileMovement = false := by
  with_unfolding_all decide

set_option maxRecDepth 200000 in
/-- C1 witness: the amended round trip at the concrete reachable state
`c1s`. -/
theorem C1_witness :
    c1s.undoStack ≠ [] ∧
    c1r.tiles = c1s.tiles ∧ c1r.undoStack = c1s.undoStack ∧
    c1r.redoStack = c1s.redoStack := by
  have h1 : reducer env1 5 c1s .undo = some c1u := by with_unfolding_all decide
  have h2 : reducer env1 5 c1u .redo = some c1r := by with_unfolding_all decide
  have h3 : c1s.undoStack ≠ [] := by with_unfolding_all decide
  exact ⟨h3, C1_undo_then_redo_restores_history env1 5 c1s c1u c1r h1 h2 h3⟩

/-- C5 (amended): (1) two consecutive arrange invocations on an unchanged
≥3-tile target alternate between the two layouts (line then circle or circle
then line, per the toggle state); (2) on fewer than 3 tiles arrange always
takes the line-layout branch; (3) any action that changes the selection
leaves `showingArrangeToLine` false, so the next arrange on a ≥3-tile target
uses the CIRCLE layout (the original claim said line; refuted by
`C5_counterexample`). -/
theorem C5_arrange_toggle_behaviour :
    (∀ env fuel s s', reducer env fuel s .arrange = some s' →
      3 ≤ (mutationTargetIds s).length →
      (arrangeUsesLine s' ↔ ¬ arrangeUsesLine s)) ∧
    (∀ env fuel s ids, ids.length < 3 →
      arrangeOn env fuel s ids =
        (startingOffsetsOf s.tiles ids).bind (arrangeOnLine env fuel s ids)) ∧
    (∀ env fuel s a s', reducer env fuel s a = some s' →
      s'.selectedTileIds ≠ s.selectedTileIds →
      s'.showingArrangeToLine = false ∧
      (3 ≤ (mutationTargetIds s').length → ¬ arrangeUsesLine s')) := by
  refine ⟨fun env fuel s s' hred hlen => ?_, fun env fuel s ids hlen => ?_,
    fun env fuel s a s' hred hsel => ?_⟩
  · have h0 : reducer env fuel s .arrange =
        (arrangeOn env fuel s (mutationTargetIds s)).map (arrangeResetWrap s) := rfl
    rw [h0] at hred
    obtain ⟨x, hx, hwx⟩ := Option.map_eq_some'.mp hred
    obtain ⟨hline, hcirc, -, -, hselx, hidsx⟩ :=
      arrangeOn_some env fuel s (mutationTargetIds s) x hx
    have hsx : s' = x := by
      rw [← hwx, arrangeResetWrap_of_sel_eq s x hselx.symm]
    subst hsx
    have hmut : mutationTargetIds s' = mutationTargetIds s :=
      mutationTargetIds_congr s s' hselx hidsx
    have hnotlt : ¬ (mutationTargetIds s).length < 3 := by omega
    unfold arrangeUsesLine
    rw [hmut]
    by_cases hflag : s.showingArrangeToLine = true
    · have hx' := hline (Or.inr hflag)
      apply iff_of_false
      · intro hcon
        rcases hcon with hc | hc
        · exact hnotlt hc
        · rw [hx'] at hc
          exact Bool.false_ne_true hc
      · intro hcon
        exact hcon (Or.inr hflag)
    · have hx' := hcirc (fun hc => hc.elim hnotlt hflag)
      apply iff_of_true
      · exact Or.inr hx'
      · intro hcon
        exact hcon.elim hnotlt hflag
  · unfold arrangeOn
    rcases hso : startingOffsetsOf s.tiles ids with _ | so
    · rfl
    · simp only
      rw [if_pos (Or.inl hlen)]
      rfl
  · have h0 : reducer env fuel s a =
        (innerReducer env fuel s a).map (arrangeResetWrap s) := rfl
    rw [h0] at hred
    obtain ⟨x, -, hwx⟩ := Option.map_eq_some'.mp hred
    have hflag : s'.showingArrangeToLine = false := by
      by_cases hc : x.showingArrangeToLine = true ∧ s.selectedTileIds ≠ x.selectedTileIds
      · rw [← hwx]
        unfold arrangeResetWrap
        rw [if_pos hc]
      · have hx : s' = x := by
          rw [← hwx]
          unfold arrangeResetWrap
          rw [if_neg hc]
        rcases not_and_or.mp hc with hc1 | hc2
        · cases hxb : x.showingArrangeToLine with
          | false =>
            rw [hx]
            exact hxb
          | true => exact absurd hxb hc1
        · exfalso
          apply hsel
          rw [hx]
          exact (not_not.mp hc2).symm
    refine ⟨hflag, fun hlen => ?_⟩
    unfold arrangeUsesLine
    intro hcon
    rcases hcon with hc | hc
    · omega
    · rw [hflag] at hc
      exact Bool.false_ne_true hc

set_option maxRecDepth 200000 in
/-- C5 counterexample: on `c5s0` (three tiles, empty selection) the first
arrange takes the circle branch (toggle becomes true); `selectAll` then
changes the selection from `[]` to `[1, 2, 3]`, and the wrapper resets the
toggle to false; the next arrange, on a 3-id target, therefore takes the
CIRCLE branch again (it sets the toggle to true, which only the circle branch
does), refuting "changing the selection resets the toggle to line". -/
theorem C5_counterexample :
    c5mid.map State.selectedTileIds = some [] ∧
    c5next.map State.selectedTileIds = some [1, 2, 3] ∧
    c5next.map State.showingArrangeToLine = some false ∧
    c5next.map mutationTargetIds = some [1, 2, 3] ∧
    c5third.map State.showingArrangeToLine = some true := by
  with_unfolding_all decide

set_option maxRecDepth 200000 in
/-- C5 witness: the alternation conclusion at the concrete state `c5s0` and
its arrange successor `c5s1`. -/
theorem C5_witness :
    reducer env1 9 c5s0 .arrange = some c5s1 ∧
    3 ≤ (mutationTargetIds c5s0).length ∧
    (arrangeUsesLine c5s1 ↔ ¬ arrangeUsesLine c5s0) := by
  have h : reducer env1 9 c5s0 .arrange = some c5s1 := by with_unfolding_all decide
  have hlen : 3 ≤ (mutationTargetIds c5s0).length := by with_unfolding_all decide
  exact ⟨h, hlen, C5_arrange_toggle_behaviour.1 env1 9 c5s0 c5s1 h hlen⟩

end Ducktiles
